import Mathlib

/-!
# A verification development for the `dowel` logging library

This file gives a shallow embedding, in Lean 4, of the routing/dispatch core of
the `dowel` logging facility (files `dowel/logger.py` and `dowel/csv_output.py`)
and proves the behavioural claims of the specification against it.

Modelling conventions:

* Python objects that can be logged are modelled by the inductive `Dowel.Value`.
  The constructors cover the type tags the code distinguishes: `str`, scalar
  types (`int`, `bool`, members of `numpy`'s scalar-type tuple), `TabularInput`
  instances (identified opaquely, since `CsvOutput` never accepts them), and
  arbitrary other objects carrying only their class name.
* A registered logger output is modelled by `Dowel.Output`: an identity, its
  concrete Python class (used by `isinstance`-based lifecycle operations), and
  the two duck-typed acceptance predicates `typesAccepted`
  (`isinstance(value, output.types_accepted)`) and `keysAccepted`
  (`re.match(output.keys_accepted, key)` succeeding).
* Side effects (calls to `output.record`, emitted warnings, `output.dump`
  calls) are modelled as explicit event lists returned next to the new state.
* A raised Python exception is modelled as an `Option String` error component
  returned next to the (unchanged) state.
-/

namespace Dowel

/-- A Python value passed to `Logger.logkv` / stored in a `TabularInput`.
`str`, `intV` and `boolV` are the scalar-ish types the embedding represents
concretely; `intV`/`boolV` stand for members of `(str,) + np.ScalarType`
other than `str`.  `tabularInput` is an instance of the `TabularInput` class,
identified opaquely.  `other` is any other object, carrying its class name
(`type(value).__name__`). -/
inductive Value where
  | str (s : String)
  | intV (n : Int)
  | boolV (b : Bool)
  | tabularInput (id : Nat)
  | other (clsName : String)
  deriving DecidableEq, Repr

/-- `type(value).__name__`, as used in the logger's unaccepted-value warning. -/
def Value.typeName : Value → String
  | .str _ => "str"
  | .intV _ => "int"
  | .boolV _ => "bool"
  | .tabularInput _ => "TabularInput"
  | .other n => n

/-- `isinstance(value, TabularInput)`. -/
def Value.isTabular : Value → Bool
  | .tabularInput _ => true
  | _ => false

/-- A primitive (CSV-serialisable) value: what `TabularInput.as_primitive_dict`
produces for each stored value. -/
inductive Prim where
  | str (s : String)
  | intV (n : Int)
  | boolV (b : Bool)
  deriving DecidableEq, Repr

/-- Modelled from the spec: `TabularInput.as_primitive_dict` coerces
unsupported value types to their string form (`dowel/tabular_input.py` is not
under `src/`); str and scalar values are kept as they are. -/
def Value.toPrim : Value → Prim
  | .str s => .str s
  | .intV n => .intV n
  | .boolV b => .boolV b
  | .tabularInput i => .str ("<TabularInput " ++ toString i ++ ">")
  | .other n => .str ("<" ++ n ++ ">")

/-- Modelled from the spec: `TabularInput` (`dowel/tabular_input.py` is not
under `src/`) is an insertion-ordered mapping from string keys to values with
last-write-wins semantics.  Only the parts `CsvOutput` uses are modelled:
`record`, `empty`, `as_primitive_dict` and `clear`. -/
structure TabularInput where
  entries : List (String × Value)
  deriving DecidableEq, Repr

/-- Modelled from the spec: `TabularInput.record(key, value)` inserts or
overwrites `key → value`; insertion order of new keys is preserved. -/
def TabularInput.record (t : TabularInput) (key : String) (value : Value) :
    TabularInput :=
  if t.entries.any (fun e => e.1 == key) then
    ⟨t.entries.map (fun e => if e.1 == key then (key, value) else e)⟩
  else
    ⟨t.entries ++ [(key, value)]⟩

/-- Modelled from the spec: `TabularInput.empty` is true iff no keys are
currently recorded. -/
def TabularInput.empty (t : TabularInput) : Bool :=
  t.entries.isEmpty

/-- The key list of the mapping, in insertion order. -/
def TabularInput.keys (t : TabularInput) : List String :=
  t.entries.map Prod.fst

/-- Modelled from the spec: `TabularInput.as_primitive_dict` produces a plain
mapping key → string/scalar, coercing unsupported value types to their string
form; the key set is that of the mapping. -/
def TabularInput.asPrimitiveDict (t : TabularInput) : List (String × Prim) :=
  t.entries.map (fun e => (e.1, e.2.toPrim))

/-- Modelled from the spec: `TabularInput.clear()` removes all keys. -/
def TabularInput.clear (_t : TabularInput) : TabularInput :=
  ⟨[]⟩

/-- The Python classes of the `LogOutput` hierarchy that the code mentions.
`logOutput` is the abstract base class `dowel.logger.LogOutput`; `fileOutput`
is `dowel.simple_outputs.FileOutput`; the rest are the concrete sinks. -/
inductive PyClass where
  | logOutput
  | fileOutput
  | stdOutput
  | textOutput
  | csvOutput
  | tensorBoardOutput
  deriving DecidableEq, Repr

/-- `issubclass` on the modelled class hierarchy: every class here derives from
`LogOutput`; `CsvOutput` and `TextOutput` derive from `FileOutput`. -/
def PyClass.isSubclassOf : PyClass → PyClass → Bool
  | _, .logOutput => true
  | .csvOutput, .fileOutput => true
  | .textOutput, .fileOutput => true
  | c, d => c == d

/-- A registered logger output object: its identity, its concrete class, and
its two duck-typed acceptance predicates, read by `Logger.logkv` exactly as
the Python code reads `output.types_accepted` and `output.keys_accepted`. -/
structure Output where
  id : Nat
  cls : PyClass
  typesAccepted : Value → Bool
  keysAccepted : String → Bool

/-- `isinstance(o, c)` for an output object. -/
def Output.instOf (o : Output) (c : PyClass) : Bool :=
  o.cls.isSubclassOf c

/-- `CsvOutput.types_accepted` from `src/src/dowel/csv_output.py`:
`(str, ) + np.ScalarType`, i.e. `str` together with the scalar types;
a `TabularInput` is not among them, nor is any other non-scalar object. -/
def csvTypesAccepted : Value → Bool
  | .str _ => true
  | .intV _ => true
  | .boolV _ => true
  | .tabularInput _ => false
  | .other _ => false

/-- `CsvOutput.keys_accepted` from `src/src/dowel/csv_output.py` is the regex
pattern consisting of the single anchor `^`, and `re.match` with that pattern
succeeds on every key. -/
def csvKeysAccepted (_key : String) : Bool :=
  true

/-- A `CsvOutput` instance as seen by the `Logger`: class `csvOutput` and the
acceptance predicates of `src/src/dowel/csv_output.py`. -/
def mkCsvOutput (id : Nat) : Output :=
  ⟨id, .csvOutput, csvTypesAccepted, csvKeysAccepted⟩

/-- Spec-side predicate (used to state the amended claim about `CsvOutput`):
a value is a `str` or a scalar. -/
def Value.isStrOrScalar : Value → Bool
  | .str _ => true
  | .intV _ => true
  | .boolV _ => true
  | _ => false

/-- An observable side effect of a `Logger` operation: a call
`output.record(key, value, prefix=pre)`, an actually-emitted
`warnings.warn(msg)`, or a call `output.dump(step)`. -/
inductive Event where
  | record (o : Output) (key : String) (value : Value) (pre : String)
  | warn (msg : String)
  | dumpCall (o : Output) (stepN : Option Nat)

/-- The state of `dowel.logger.Logger` (`src/src/dowel/logger.py`):
`_outputs`, `_prefixes`, `_prefix_str`, `_warned_once`, `_disable_warnings`. -/
structure Logger where
  outputs : List Output
  prefixes : List String
  prefixStr : String
  warnedOnce : List String
  warningsDisabled : Bool

/-- `Logger.__init__`. -/
def initLogger : Logger :=
  ⟨[], [], "", [], false⟩

/-- `Logger._warn(msg)`: emit the warning only if warnings are enabled and the
message was never warned before; in every case add the message to the
de-duplication set. -/
def Logger.warn (st : Logger) (msg : String) : Logger × List Event :=
  ({ st with warnedOnce := st.warnedOnce.insert msg },
   if st.warningsDisabled = false ∧ msg ∉ st.warnedOnce then
     [Event.warn msg]
   else [])

/-- The message of `Logger.logkv`'s no-outputs warning. -/
def noOutputsMsg : String :=
  "No outputs have been added to the logger."

/-- The message of `Logger.logkv`'s unaccepted-value warning, for a value
whose `type(value).__name__` is `t`. -/
def notAcceptedMsg (t : String) : String :=
  "Log data of type " ++ t ++ " was not accepted by any output"

/-- The dispatch loop of `Logger.logkv`: for each output, in registration
order, if `isinstance(value, output.types_accepted)` and
`re.match(output.keys_accepted, key)` both hold, call
`output.record(key, value, prefix=pre)`. -/
def recordCalls : List Output → String → Value → String → List Event
  | [], _, _, _ => []
  | o :: rest, key, value, pre =>
    (if o.typesAccepted value && o.keysAccepted key then
       [Event.record o key value pre]
     else []) ++ recordCalls rest key value pre

/-- `Logger.logkv(key, value)`: warn once if no outputs are registered,
dispatch to every matching output in registration order, and warn once if no
output accepted the value.  `at_least_one_logged` is true exactly when the
dispatch loop produced at least one record call. -/
def Logger.logkv (st : Logger) (key : String) (value : Value) :
    Logger × List Event :=
  let s1 := if st.outputs.isEmpty then st.warn noOutputsMsg else (st, [])
  let recs := recordCalls s1.1.outputs key value s1.1.prefixStr
  let s2 :=
    if recs.isEmpty then s1.1.warn (notAcceptedMsg value.typeName)
    else (s1.1, [])
  (s2.1, s1.2 ++ recs ++ s2.2)

/-- `Logger.log(value)` is `logkv('', value)`. -/
def Logger.log (st : Logger) (value : Value) : Logger × List Event :=
  st.logkv "" value

/-- The possible arguments of `Logger.add_output`: an uninstantiated type
reference, an instance of a class outside the `LogOutput` hierarchy, or a
proper `LogOutput` instance. -/
inductive PyObject where
  | typeRef (c : PyClass)
  | nonOutput (clsName : String)
  | outputObj (o : Output)

/-- The `ValueError` message for a type passed to `add_output` (the source
text contains an apostrophe, elided here). -/
def typeErrMsg : String :=
  "Output object must be instantiated - dont pass a type."

/-- The `ValueError` message for a non-`LogOutput` object passed to
`add_output`. -/
def notOutputErrMsg : String :=
  "Output object must be a subclass of LogOutput"

/-- `Logger.add_output(output)`: raise `ValueError` on an uninstantiated type
or a non-`LogOutput` object (returning the state unchanged), otherwise append
the output to the registration order. -/
def Logger.addOutput (st : Logger) (obj : PyObject) : Logger × Option String :=
  match obj with
  | .typeRef _ => (st, some typeErrMsg)
  | .nonOutput _ => (st, some notOutputErrMsg)
  | .outputObj o => ({ st with outputs := st.outputs ++ [o] }, none)

/-- `Logger.remove_all()`. -/
def Logger.removeAll (st : Logger) : Logger :=
  { st with outputs := [] }

/-- `Logger.remove_output_type(output_type)`: the list comprehension keeping
exactly the outputs that are not instances of `output_type`. -/
def Logger.removeOutputType (st : Logger) (c : PyClass) : Logger :=
  { st with outputs := st.outputs.filter (fun o => !(o.instOf c)) }

/-- `Logger.reset_output(output)`: remove all outputs of `type(output)`, then
re-add `output` (the `add_output` call always succeeds on an output
instance). -/
def Logger.resetOutput (st : Logger) (o : Output) : Logger :=
  ((st.removeOutputType o.cls).addOutput (.outputObj o)).1

/-- `Logger.has_output_type(output_type)`: the scan returning true on the
first registered output that is an instance of `output_type`. -/
def Logger.hasOutputType (st : Logger) (c : PyClass) : Bool :=
  st.outputs.any (fun o => o.instOf c)

/-- `Logger.push_prefix(prefix)`: append to the prefix stack and recompute
`_prefix_str` as the join of the whole stack. -/
def Logger.prefixPush (st : Logger) (p : String) : Logger :=
  { st with prefixes := st.prefixes ++ [p],
            prefixStr := String.join (st.prefixes ++ [p]) }

/-- `Logger.pop_prefix()`: `del self._prefixes[-1]` raises `IndexError` on an
empty stack (state unchanged); otherwise drop the last element and recompute
`_prefix_str`. -/
def Logger.prefixPop (st : Logger) : Logger × Option String :=
  match st.prefixes with
  | [] => (st, some "IndexError: cannot delete from an empty list")
  | _ => ({ st with prefixes := st.prefixes.dropLast,
                    prefixStr := String.join st.prefixes.dropLast }, none)

/-- `Logger.disable_warnings()`: a one-way latch. -/
def Logger.disableWarnings (st : Logger) : Logger :=
  { st with warningsDisabled := true }

/-- `Logger.dump_all(step)`: call `output.dump(step)` on every registered
output in registration order (sink-internal state is out of this model). -/
def Logger.dumpAll (st : Logger) (stepN : Option Nat) : Logger × List Event :=
  (st, st.outputs.map (fun o => Event.dumpCall o stepN))

/-- `Logger.dump_output_type(output_type, step)`. -/
def Logger.dumpOutputType (st : Logger) (c : PyClass) (stepN : Option Nat) :
    Logger × List Event :=
  (st, (st.outputs.filter (fun o => o.instOf c)).map
        (fun o => Event.dumpCall o stepN))

/-- An operation performed on the CSV log file: the header row written by
`DictWriter.writeheader()`, a data row written by `DictWriter.writerow(...)`,
or a `file.flush()`. -/
inductive FileOp where
  | headerRow (fields : List String)
  | dataRow (row : List (String × Prim))
  | flushOp
  deriving DecidableEq, Repr

/-- The de-duplication signature of a `CsvOutput` schema-mismatch warning: the
warning message is a deterministic function of the pair
`(set(self._fieldnames), set(to_csv.keys()))`, so de-duplicating on the
message de-duplicates on this pair of key sets. -/
abbrev MismatchSig := Finset String × Finset String

/-- The state of `dowel.csv_output.CsvOutput`
(`src/src/dowel/csv_output.py`): `_fieldnames` is `some _` exactly when the
`csv.DictWriter` has been created; `_warned_once` and `_disable_warnings` are
the sink's own warning bookkeeping; `tabular` is its internal `TabularInput`
buffer; `fileTrace` records the operations performed on the log file. -/
structure CsvState where
  fieldnames : Option (List String)
  warnedOnce : List MismatchSig
  warningsDisabled : Bool
  tabular : TabularInput
  fileTrace : List FileOp

/-- `CsvOutput.__init__`: no writer, no fieldnames, empty warning set, a fresh
`TabularInput`, nothing written yet. -/
def initCsv : CsvState :=
  ⟨none, [], false, ⟨[]⟩, []⟩

/-- `CsvOutput.record(key, value)`: buffer the pair into the internal
`TabularInput` (only called by the `Logger` with accepted str/scalar
values). -/
def CsvState.record (c : CsvState) (key : String) (value : Value) : CsvState :=
  { c with tabular := c.tabular.record key value }

/-- The row `csv.DictWriter` (with `extrasaction=ignore` and the default
`restval` of the empty string) writes for the dict `to_csv`: one cell per
field name, the empty string for a field missing from the dict, entries of
the dict outside the field names dropped. -/
def mkRow (fields : List String) (to_csv : List (String × Prim)) :
    List (String × Prim) :=
  fields.map (fun f => (f, (to_csv.lookup f).getD (Prim.str "")))

/-- `CsvOutput.dump(step)` (`src/src/dowel/csv_output.py` lines 40-68):
return if the buffer is empty; on the first non-empty dump fix the field
names from the snapshot keys, create the writer and write the header; if the
snapshot key set differs from the field-name set, warn once per distinct
signature via `CsvOutput._warn`; write the row, flush the file, clear the
buffer.  Returns the new state and the list of actually-emitted
schema-mismatch warnings. -/
def CsvState.dump (c : CsvState) : CsvState × List MismatchSig :=
  if c.tabular.empty then (c, [])
  else
    let to_csv := c.tabular.asPrimitiveDict
    if to_csv.isEmpty && c.fieldnames.isNone then (c, [])
    else
      let s1 : CsvState × List String :=
        match c.fieldnames with
        | none =>
          ({ c with fieldnames := some c.tabular.keys,
                    fileTrace := c.fileTrace
                      ++ [FileOp.headerRow c.tabular.keys] },
           c.tabular.keys)
        | some fields => (c, fields)
      let s2 : CsvState × List MismatchSig :=
        if (to_csv.map Prod.fst).toFinset = s1.2.toFinset then (s1.1, [])
        else
          let sig : MismatchSig :=
            (s1.2.toFinset, (to_csv.map Prod.fst).toFinset)
          ({ s1.1 with warnedOnce := s1.1.warnedOnce.insert sig },
           if s1.1.warningsDisabled = false ∧ sig ∉ s1.1.warnedOnce then
             [sig]
           else [])
      ({ s2.1 with
           fileTrace := s2.1.fileTrace
             ++ [FileOp.dataRow (mkRow s1.2 to_csv), FileOp.flushOp],
           tabular := s2.1.tabular.clear },
       s2.2)

/-- A sequence of dump cycles on one `CsvOutput`: cycle `i` buffers the
snapshot `snaps[i]` (via `record` calls) and then dumps.  Returns the final
state and the concatenation of all emitted schema-mismatch warnings. -/
def CsvState.dumpRun : CsvState → List TabularInput → CsvState × List MismatchSig
  | c, [] => (c, [])
  | c, t :: ts =>
    let s1 := CsvState.dump { c with tabular := t }
    let s2 := s1.1.dumpRun ts
    (s2.1, s1.2 ++ s2.2)

/-- Whether a file operation is a data-row write. -/
def FileOp.isDataRow : FileOp → Bool
  | .dataRow _ => true
  | _ => false

/-- How many times a given schema-mismatch signature occurs in a list of
emitted warnings. -/
def sigCount (sig : MismatchSig) (l : List MismatchSig) : Nat :=
  l.count sig

/-- One call of the public `Logger` API, for reasoning about whole lifetimes
of a `Logger` instance. -/
inductive LoggerOp where
  | logkvOp (key : String) (value : Value)
  | logOp (value : Value)
  | addOutputOp (obj : PyObject)
  | removeAllOp
  | removeOutputTypeOp (c : PyClass)
  | resetOutputOp (o : Output)
  | prefixPushOp (p : String)
  | prefixPopOp
  | disableWarningsOp
  | dumpAllOp (stepN : Option Nat)
  | dumpOutputTypeOp (c : PyClass) (stepN : Option Nat)

/-- Execute one API call on the logger, returning the new state and the
events it emits. -/
def Logger.stepOp (st : Logger) : LoggerOp → Logger × List Event
  | .logkvOp k v => st.logkv k v
  | .logOp v => st.log v
  | .addOutputOp obj => ((st.addOutput obj).1, [])
  | .removeAllOp => (st.removeAll, [])
  | .removeOutputTypeOp c => (st.removeOutputType c, [])
  | .resetOutputOp o => (st.resetOutput o, [])
  | .prefixPushOp p => (st.prefixPush p, [])
  | .prefixPopOp => ((st.prefixPop).1, [])
  | .disableWarningsOp => (st.disableWarnings, [])
  | .dumpAllOp s => st.dumpAll s
  | .dumpOutputTypeOp c s => st.dumpOutputType c s

/-- Execute a sequence of API calls, concatenating the emitted events. -/
def Logger.run : Logger → List LoggerOp → Logger × List Event
  | st, [] => (st, [])
  | st, op :: ops =>
    let s1 := st.stepOp op
    let s2 := s1.1.run ops
    (s2.1, s1.2 ++ s2.2)

/-- Whether an event is the emission of the warning `msg`. -/
def Event.isWarnOf (msg : String) : Event → Bool
  | .warn m => m == msg
  | _ => false

/-- How many times the warning `msg` is actually emitted in an event list. -/
def warnCount (msg : String) (evs : List Event) : Nat :=
  evs.countP (Event.isWarnOf msg)

/-- The `record` calls contained in an event list, in order: for each call,
the output it went to and the key, value and prefix arguments. -/
def recordsOf : List Event → List (Output × String × Value × String)
  | [] => []
  | .record o k v p :: rest => (o, k, v, p) :: recordsOf rest
  | .warn _ :: rest => recordsOf rest
  | .dumpCall _ _ :: rest => recordsOf rest

/-! ## Concrete states used by witnesses and counterexamples -/

/-- A logger with a single registered `CsvOutput` and no other state. -/
def exCsvLogger : Logger :=
  ⟨[mkCsvOutput 0], [], "", [], false⟩

/-- A logger whose prefix stack holds the single prefix `x`. -/
def exPrefixLogger : Logger :=
  ⟨[], ["x"], "x", [], false⟩

/-- A logger whose warnings have been disabled. -/
def exDisabledLogger : Logger :=
  ⟨[], [], "", [], true⟩

/-- A `CsvOutput` whose writer has been created with field names `x, y` and
whose buffer currently holds only `x`. -/
def exCsvState : CsvState :=
  ⟨some ["x", "y"], [], false, ⟨[("x", Value.intV 1)]⟩,
   [FileOp.headerRow ["x", "y"]]⟩

/-- A fresh `CsvOutput` whose buffer holds `x` and `y`, before its first
dump. -/
def exFirstCsv : CsvState :=
  ⟨none, [], false, ⟨[("x", Value.intV 1), ("y", Value.str "z")]⟩, []⟩

/-! ## Helper lemmas about the dispatch loop -/

theorem recordCalls_eq_filter_map (os : List Output) (k : String) (v : Value)
    (p : String) :
    recordCalls os k v p
      = (os.filter (fun o => o.typesAccepted v && o.keysAccepted k)).map
          (fun o => Event.record o k v p) := by
  induction os with
  | nil => rfl
  | cons o rest ih =>
    by_cases h : (o.typesAccepted v && o.keysAccepted k) = true
    · simp [recordCalls, List.filter_cons, h, ih]
    · simp [recordCalls, List.filter_cons, h, ih]

theorem recordsOf_append (a b : List Event) :
    recordsOf (a ++ b) = recordsOf a ++ recordsOf b := by
  induction a with
  | nil => rfl
  | cons e rest ih => cases e <;> simp [recordsOf, ih]

theorem recordsOf_map_record (os : List Output) (k : String) (v : Value)
    (p : String) :
    recordsOf (os.map (fun o => Event.record o k v p))
      = os.map (fun o => (o, k, v, p)) := by
  induction os with
  | nil => rfl
  | cons o rest ih => simp [recordsOf, ih]

theorem recordsOf_warn (st : Logger) (m : String) :
    recordsOf (st.warn m).2 = [] := by
  unfold Logger.warn
  split <;> rfl

theorem warn_outputs (st : Logger) (m : String) :
    (st.warn m).1.outputs = st.outputs := rfl

theorem warn_prefixStr (st : Logger) (m : String) :
    (st.warn m).1.prefixStr = st.prefixStr := rfl

theorem warn_warnedOnce (st : Logger) (m : String) :
    (st.warn m).1.warnedOnce = st.warnedOnce.insert m := rfl

theorem warn_disabled (st : Logger) (m : String) :
    (st.warn m).1.warningsDisabled = st.warningsDisabled := rfl

/-- The record calls emitted by one `logkv` are exactly one call per matching
output, in registration order, with the current prefix string. -/
theorem recordsOf_logkv (st : Logger) (k : String) (v : Value) :
    recordsOf (st.logkv k v).2
      = (st.outputs.filter (fun o => o.typesAccepted v && o.keysAccepted k)).map
          (fun o => (o, k, v, st.prefixStr)) := by
  unfold Logger.logkv
  by_cases h1 : st.outputs.isEmpty <;>
    simp only [h1, if_true, if_false, Bool.false_eq_true] <;>
  · rw [recordCalls_eq_filter_map]
    split <;>
      simp [recordsOf_append, recordsOf_warn, recordsOf_map_record,
        warn_outputs, warn_prefixStr, recordsOf]

/-! ## C1 -/

/-- C1: for every `Logger.logkv(key, value)` call and every registered
output, considered in registration order, `output.record(key, value,
prefix=<current prefix string>)` is called if and only if
`isinstance(value, output.types_accepted)` holds and the output's
`keys_accepted` pattern matches `key`; outputs failing either condition
receive nothing.  The equation states that the record calls are exactly one
per matching output, in registration order, with the current prefix; the
biconditional restates the dispatch condition per output. -/
theorem c1_dispatch_iff (st : Logger) (k : String) (v : Value) :
    recordsOf (st.logkv k v).2
      = (st.outputs.filter (fun o => o.typesAccepted v && o.keysAccepted k)).map
          (fun o => (o, k, v, st.prefixStr))
    ∧ ∀ o : Output, o ∈ st.outputs →
        ((o, k, v, st.prefixStr) ∈ recordsOf (st.logkv k v).2
          ↔ o.typesAccepted v = true ∧ o.keysAccepted k = true) := by
  refine ⟨recordsOf_logkv st k v, ?_⟩
  intro o ho
  rw [recordsOf_logkv]
  constructor
  · intro hmem
    rcases List.mem_map.mp hmem with ⟨o', ho', heq⟩
    have hoo : o' = o := congrArg Prod.fst heq
    subst hoo
    have hcond := (List.mem_filter.mp ho').2
    simpa [Bool.and_eq_true] using hcond
  · rintro ⟨ht, hk⟩
    exact List.mem_map.mpr ⟨o, List.mem_filter.mpr ⟨ho, by simp [ht, hk]⟩, rfl⟩

/-- Witness for C1 at a concrete logger holding one `CsvOutput`. -/
theorem c1_witness :
    mkCsvOutput 0 ∈ exCsvLogger.outputs
    ∧ ((mkCsvOutput 0, "k", Value.str "s", "")
          ∈ recordsOf (exCsvLogger.logkv "k" (Value.str "s")).2
        ↔ (mkCsvOutput 0).typesAccepted (Value.str "s") = true
            ∧ (mkCsvOutput 0).keysAccepted "k" = true) := by
  have hmem : mkCsvOutput 0 ∈ exCsvLogger.outputs := List.mem_singleton.mpr rfl
  exact ⟨hmem, (c1_dispatch_iff exCsvLogger "k" (Value.str "s")).2 _ hmem⟩

/-! ## C2 -/

/-- Counterexample to C2 as stated: the string value `test` (not a
`TabularInput`) IS dispatched to a registered `CsvOutput` — so the
tabular-file sink does not accept the tabular capability only, and it does
accept strings.  (`CsvOutput.types_accepted` in this code base is
`(str, ) + np.ScalarType`.) -/
theorem c2_counterexample :
    recordsOf (exCsvLogger.logkv "AverageReturn" (Value.str "test")).2
      = [(mkCsvOutput 0, "AverageReturn", Value.str "test", "")]
    ∧ (Value.str "test").isTabular = false
    ∧ csvTypesAccepted (Value.tabularInput 0) = false := by
  refine ⟨?_, rfl, rfl⟩
  rw [recordsOf_logkv]
  rfl

/-- C2 as amended: a value is dispatched to a registered `CsvOutput` if and
only if it is a `str` or scalar value (its `keys_accepted` matches every
key); a `TabularInput` value is never dispatched to it. -/
theorem c2_amended (st : Logger) (k : String) (v : Value) (i : Nat)
    (hmem : mkCsvOutput i ∈ st.outputs) :
    ((mkCsvOutput i, k, v, st.prefixStr) ∈ recordsOf (st.logkv k v).2
      ↔ v.isStrOrScalar = true)
    ∧ (v.isTabular = true →
        (mkCsvOutput i, k, v, st.prefixStr) ∉ recordsOf (st.logkv k v).2) := by
  have hacc : ∀ w : Value, csvTypesAccepted w = w.isStrOrScalar := by
    intro w; cases w <;> rfl
  constructor
  · rw [recordsOf_logkv]
    constructor
    · intro hm
      rcases List.mem_map.mp hm with ⟨o', ho', heq⟩
      have hoo : o' = mkCsvOutput i := congrArg Prod.fst heq
      subst hoo
      have hcond := (List.mem_filter.mp ho').2
      rw [Bool.and_eq_true] at hcond
      rw [← hacc]
      exact hcond.1
    · intro hv
      refine List.mem_map.mpr ⟨mkCsvOutput i, List.mem_filter.mpr ⟨hmem, ?_⟩, rfl⟩
      show (csvTypesAccepted v && csvKeysAccepted k) = true
      simp [hacc, hv, csvKeysAccepted]
  · intro htab hm
    rw [recordsOf_logkv] at hm
    rcases List.mem_map.mp hm with ⟨o', ho', heq⟩
    have hoo : o' = mkCsvOutput i := congrArg Prod.fst heq
    subst hoo
    have hcond := (List.mem_filter.mp ho').2
    rw [Bool.and_eq_true] at hcond
    have h1 := hcond.1
    rw [show (mkCsvOutput i).typesAccepted = csvTypesAccepted from rfl, hacc] at h1
    cases v <;> simp_all [Value.isTabular, Value.isStrOrScalar]

/-- Witness for the amended C2: with one registered `CsvOutput`, an `int`
scalar is dispatched to it, and a `TabularInput` is not. -/
theorem c2_witness :
    mkCsvOutput 0 ∈ exCsvLogger.outputs
    ∧ ((mkCsvOutput 0, "a", Value.intV 3, "")
          ∈ recordsOf (exCsvLogger.logkv "a" (Value.intV 3)).2
        ↔ (Value.intV 3).isStrOrScalar = true)
    ∧ ((Value.tabularInput 7).isTabular = true →
        (mkCsvOutput 0, "a", Value.tabularInput 7, "")
          ∉ recordsOf (exCsvLogger.logkv "a" (Value.tabularInput 7)).2) := by
  have hmem : mkCsvOutput 0 ∈ exCsvLogger.outputs := List.mem_singleton.mpr rfl
  exact ⟨hmem, (c2_amended exCsvLogger "a" (Value.intV 3) 0 hmem).1,
         (c2_amended exCsvLogger "a" (Value.tabularInput 7) 0 hmem).2⟩

/-! ## Helper lemmas about isinstance-based lifecycle operations -/

theorem subclass_refl (c : PyClass) : c.isSubclassOf c = true := by
  cases c <;> rfl

theorem filter_not_filter (l : List Output) (p : Output → Bool) :
    (l.filter (fun o => !(p o))).filter p = [] := by
  induction l with
  | nil => rfl
  | cons o rest ih => by_cases h : p o <;> simp [List.filter_cons, h, ih]

theorem any_of_filter_not (l : List Output) (p : Output → Bool) :
    (l.filter (fun o => !(p o))).any p = false := by
  induction l with
  | nil => rfl
  | cons o rest ih => by_cases h : p o <;> simp [List.filter_cons, h, ih]

/-! ## C5 -/

/-- C5: `Logger.add_output` raises `ValueError` when given an uninstantiated
type reference or an object not conforming to the `LogOutput` capability, and
in that case the `Logger`'s state — returned unchanged next to the error — is
untouched; otherwise it appends the output to the registration order with no
deduplication (the append is unconditional, so the length always grows by
one, duplicates included). -/
theorem c5_addOutput (st : Logger) :
    (∀ c : PyClass, st.addOutput (.typeRef c) = (st, some typeErrMsg))
    ∧ (∀ n : String, st.addOutput (.nonOutput n) = (st, some notOutputErrMsg))
    ∧ (∀ o : Output, st.addOutput (.outputObj o)
        = ({ st with outputs := st.outputs ++ [o] }, none))
    ∧ (∀ o : Output,
        (st.addOutput (.outputObj o)).1.outputs.length
          = st.outputs.length + 1) := by
  refine ⟨fun _ => rfl, fun _ => rfl, fun _ => rfl, fun o => ?_⟩
  simp [Logger.addOutput]

/-! ## C6 -/

/-- C6: after every `push_prefix` and every successful `pop_prefix` the
effective prefix string equals the concatenation of the prefix stack in stack
order; and from an empty stack, `push('a'); push('b'); pop()` leaves the
prefix `a`, a further `pop()` leaves it empty, and a third `pop()` on the
now-empty stack raises the out-of-range error. -/
theorem c6_prefix_stack (st : Logger) :
    (∀ p, (st.prefixPush p).prefixStr = String.join (st.prefixPush p).prefixes)
    ∧ (∀ st', st.prefixPop = (st', none)
        → st'.prefixStr = String.join st'.prefixes)
    ∧ (st.prefixes = [] →
        (((st.prefixPush "a").prefixPush "b").prefixPop).2 = none
        ∧ (((st.prefixPush "a").prefixPush "b").prefixPop).1.prefixStr = "a"
        ∧ (((((st.prefixPush "a").prefixPush "b").prefixPop).1.prefixPop)).2
            = none
        ∧ (((((st.prefixPush "a").prefixPush "b").prefixPop).1.prefixPop)).1.prefixStr
            = ""
        ∧ ((((((st.prefixPush "a").prefixPush "b").prefixPop).1.prefixPop)).1.prefixPop).2.isSome
            = true) := by
  refine ⟨fun p => rfl, ?_, ?_⟩
  · intro st' h
    cases hp : st.prefixes with
    | nil =>
      rw [Logger.prefixPop, hp] at h
      exact absurd (congrArg Prod.snd h) (by simp)
    | cons x xs =>
      rw [Logger.prefixPop, hp] at h
      have := congrArg Prod.fst h
      subst this
      rfl
  · intro h
    simp [Logger.prefixPush, Logger.prefixPop, h, String.join]

/-- Witness for C6 at concrete loggers: a successful pop from a one-element
stack re-establishes the invariant, and the scenario runs from the fresh
logger. -/
theorem c6_witness :
    (exPrefixLogger.prefixPop
        = ((exPrefixLogger.prefixPop).1, none)
      → (exPrefixLogger.prefixPop).1.prefixStr
          = String.join (exPrefixLogger.prefixPop).1.prefixes)
    ∧ exPrefixLogger.prefixPop = ((exPrefixLogger.prefixPop).1, none)
    ∧ initLogger.prefixes = []
    ∧ ((((initLogger.prefixPush "a").prefixPush "b").prefixPop).2 = none
        ∧ (((initLogger.prefixPush "a").prefixPush "b").prefixPop).1.prefixStr
            = "a"
        ∧ (((((initLogger.prefixPush "a").prefixPush "b").prefixPop).1.prefixPop)).2
            = none
        ∧ (((((initLogger.prefixPush "a").prefixPush "b").prefixPop).1.prefixPop)).1.prefixStr
            = ""
        ∧ ((((((initLogger.prefixPush "a").prefixPush "b").prefixPop).1.prefixPop)).1.prefixPop).2.isSome
            = true) :=
  ⟨(c6_prefix_stack exPrefixLogger).2.1 _, rfl, rfl,
   (c6_prefix_stack initLogger).2.2 rfl⟩

/-! ## C8 -/

/-- C8: after `reset_output(output)` exactly one registered output of
`output`'s variant remains — the passed-in instance, in last position — and
`reset_output` is idempotent.  The first equation shows the full effect:
every previous instance of the variant is removed, everything else is kept in
order, and `output` is appended. -/
theorem c8_resetOutput (st : Logger) (o : Output) :
    (st.resetOutput o).outputs
        = st.outputs.filter (fun x => !(x.instOf o.cls)) ++ [o]
    ∧ (st.resetOutput o).outputs.filter (fun x => x.instOf o.cls) = [o]
    ∧ (st.resetOutput o).outputs.getLast? = some o
    ∧ (st.resetOutput o).resetOutput o = st.resetOutput o := by
  have hrefl : o.instOf o.cls = true := subclass_refl o.cls
  have h1 : (st.resetOutput o).outputs
      = st.outputs.filter (fun x => !(x.instOf o.cls)) ++ [o] := rfl
  refine ⟨h1, ?_, ?_, ?_⟩
  · rw [h1, List.filter_append, filter_not_filter]
    simp [hrefl]
  · rw [h1]
    exact List.getLast?_concat _
  · have hfix : ((st.outputs.filter (fun x => !(x.instOf o.cls)) ++ [o]).filter
        (fun x => !(x.instOf o.cls))) = st.outputs.filter (fun x => !(x.instOf o.cls)) := by
      rw [List.filter_append]
      have hA : (st.outputs.filter (fun x => !(x.instOf o.cls))).filter
          (fun x => !(x.instOf o.cls))
            = st.outputs.filter (fun x => !(x.instOf o.cls)) :=
        List.filter_eq_self.mpr (fun a ha => (List.mem_filter.mp ha).2)
      rw [hA]
      simp [hrefl]
    show ({ st.resetOutput o with outputs := ((st.resetOutput o).outputs.filter
        (fun x => !(x.instOf o.cls))) ++ [o] }) = st.resetOutput o
    rw [h1, hfix]
    rfl

/-! ## C9 -/

/-- C9: `remove_output_type(T)` removes exactly the registered outputs that
are instances of `T`, preserving the relative order of the remainder (the
result is a sublist of the registration order, and membership is
characterised by the instance test); consequently
`add_output(S); remove_output_type(type(S))` leaves `has_output_type(type(S))`
false. -/
theorem c9_removeOutputType (st : Logger) (T : PyClass) :
    (st.removeOutputType T).outputs
        = st.outputs.filter (fun o => !(o.instOf T))
    ∧ List.Sublist (st.removeOutputType T).outputs st.outputs
    ∧ (∀ o : Output, o ∈ (st.removeOutputType T).outputs
        ↔ o ∈ st.outputs ∧ o.instOf T = false)
    ∧ (∀ S : Output,
        ((st.addOutput (.outputObj S)).1.removeOutputType S.cls).hasOutputType
          S.cls = false) := by
  refine ⟨rfl, List.filter_sublist _, ?_, ?_⟩
  · intro o
    simp [Logger.removeOutputType, List.mem_filter]
  · intro S
    exact any_of_filter_not (st.outputs ++ [S]) (fun o => o.instOf S.cls)

/-! ## Helper lemmas about the logger's warnings -/

theorem notAcceptedMsg_ne (t : String) : notAcceptedMsg t ≠ noOutputsMsg := by
  intro h
  have hl := congrArg String.length h
  rw [notAcceptedMsg, noOutputsMsg, String.length_append,
    String.length_append] at hl
  have e1 : ("Log data of type " : String).length = 17 := by decide
  have e2 : (" was not accepted by any output" : String).length = 31 := by
    decide
  have e3 : ("No outputs have been added to the logger." : String).length
      = 41 := by decide
  omega

theorem warn_snd_pos (st : Logger) (m : String)
    (hdis : st.warningsDisabled = false) (hm : m ∉ st.warnedOnce) :
    (st.warn m).2 = [Event.warn m] := by
  unfold Logger.warn
  exact if_pos ⟨hdis, hm⟩

theorem warn_snd_mem (st : Logger) (m : String) (hm : m ∈ st.warnedOnce) :
    (st.warn m).2 = [] := by
  unfold Logger.warn
  exact if_neg (fun hc => hc.2 hm)

theorem mem_warn_warnedOnce (st : Logger) (m : String) :
    m ∈ (st.warn m).1.warnedOnce := by
  rw [warn_warnedOnce]
  exact List.mem_insert_self m st.warnedOnce

theorem mem_warn_warnedOnce_of_mem (st : Logger) (m m' : String)
    (hm : m ∈ st.warnedOnce) : m ∈ (st.warn m').1.warnedOnce := by
  rw [warn_warnedOnce]
  exact List.mem_insert_iff.mpr (Or.inr hm)

/-- On a logger with no registered outputs, `logkv` is the no-outputs warning
followed by the unaccepted-value warning, with no record calls. -/
theorem logkv_no_outputs_shape (st : Logger) (key : String) (v : Value)
    (hout : st.outputs = []) :
    st.logkv key v
      = (((st.warn noOutputsMsg).1.warn (notAcceptedMsg v.typeName)).1,
         (st.warn noOutputsMsg).2
           ++ ((st.warn noOutputsMsg).1.warn (notAcceptedMsg v.typeName)).2) := by
  have hisem : st.outputs.isEmpty = true := by rw [hout]; rfl
  have hrecs : recordCalls (st.warn noOutputsMsg).1.outputs key v
      (st.warn noOutputsMsg).1.prefixStr = [] := by
    rw [warn_outputs, hout]
    rfl
  unfold Logger.logkv
  rw [hisem]
  simp only [if_true, hrecs, List.isEmpty_nil, if_pos, List.append_nil,
    List.nil_append]

/-! ## Warning-count lemmas -/

theorem warnCount_append (msg : String) (a b : List Event) :
    warnCount msg (a ++ b) = warnCount msg a + warnCount msg b :=
  List.countP_append _ _ _

theorem warnCount_map_record (msg : String) (os : List Output) (k : String)
    (v : Value) (p : String) :
    warnCount msg (os.map (fun o => Event.record o k v p)) = 0 := by
  induction os with
  | nil => rfl
  | cons o rest ih =>
    simp only [List.map_cons, warnCount, List.countP_cons, Event.isWarnOf] at ih ⊢
    simpa using ih

theorem warnCount_recordCalls (msg : String) (os : List Output) (k : String)
    (v : Value) (p : String) :
    warnCount msg (recordCalls os k v p) = 0 := by
  rw [recordCalls_eq_filter_map]
  exact warnCount_map_record msg _ k v p

theorem warnCount_map_dumpCall (msg : String) (os : List Output)
    (s : Option Nat) :
    warnCount msg (os.map (fun o => Event.dumpCall o s)) = 0 := by
  induction os with
  | nil => rfl
  | cons o rest ih =>
    simp only [List.map_cons, warnCount, List.countP_cons, Event.isWarnOf] at ih ⊢
    simpa using ih

theorem warnCount_warn_zero_of_mem (st : Logger) (m msg : String)
    (hmem : msg ∈ st.warnedOnce) :
    warnCount msg (st.warn m).2 = 0 := by
  unfold Logger.warn
  dsimp only
  split
  · next h =>
    have hne : ¬(m == msg) = true := by
      intro hb
      exact h.2 (by rwa [eq_of_beq hb])
    simp [warnCount, List.countP_cons, Event.isWarnOf, hne]
  · rfl

theorem warnCount_warn_le_one (st : Logger) (m msg : String) :
    warnCount msg (st.warn m).2 ≤ 1 := by
  unfold Logger.warn
  dsimp only
  split
  · exact List.countP_le_length _
  · exact Nat.zero_le 1

theorem mem_of_warnCount_warn_ne_zero (st : Logger) (m msg : String)
    (h : warnCount msg (st.warn m).2 ≠ 0) :
    msg ∈ (st.warn m).1.warnedOnce := by
  revert h
  unfold Logger.warn
  dsimp only
  split
  · intro h
    have hb : (m == msg) = true := by
      by_contra hc
      exact h (by simp [warnCount, List.countP_cons, Event.isWarnOf, hc])
    rw [← eq_of_beq hb]
    exact List.mem_insert_self m st.warnedOnce
  · intro h
    exact absurd rfl h

/-! ## Shape lemmas for logkv in the remaining cases -/

/-- On a logger with outputs none of which accept the value, `logkv` emits
the record calls (none) and the unaccepted-value warning. -/
theorem logkv_shape_unaccepted (st : Logger) (k : String) (v : Value)
    (hout : st.outputs.isEmpty = false)
    (hrec : recordCalls st.outputs k v st.prefixStr = []) :
    st.logkv k v = ((st.warn (notAcceptedMsg v.typeName)).1,
                    (st.warn (notAcceptedMsg v.typeName)).2) := by
  unfold Logger.logkv
  simp only [hout, Bool.false_eq_true, if_false, hrec, List.isEmpty_nil,
    if_true, List.nil_append, List.append_nil]

/-- On a logger where at least one output accepts the value, `logkv` leaves
the state unchanged and emits exactly the record calls. -/
theorem logkv_shape_accepted (st : Logger) (k : String) (v : Value)
    (hout : st.outputs.isEmpty = false)
    (hrec : (recordCalls st.outputs k v st.prefixStr).isEmpty = false) :
    st.logkv k v = (st, recordCalls st.outputs k v st.prefixStr) := by
  unfold Logger.logkv
  simp only [hout, Bool.false_eq_true, if_false, hrec, List.nil_append,
    List.append_nil]

/-! ## Per-call and per-run warning facts -/

theorem logkv_warnCount (st : Logger) (k : String) (v : Value) (msg : String) :
    (msg ∈ st.warnedOnce → warnCount msg (st.logkv k v).2 = 0)
    ∧ warnCount msg (st.logkv k v).2 ≤ 1
    ∧ (warnCount msg (st.logkv k v).2 ≠ 0 → msg ∈ (st.logkv k v).1.warnedOnce)
    ∧ (msg ∈ st.warnedOnce → msg ∈ (st.logkv k v).1.warnedOnce) := by
  by_cases hout : st.outputs.isEmpty
  · -- no outputs: two chained warn calls
    have hnil : st.outputs = [] := List.isEmpty_iff.mp hout
    have hshape := logkv_no_outputs_shape st k v hnil
    rw [hshape]
    dsimp only
    rw [warnCount_append]
    constructor
    · intro hmem
      rw [warnCount_warn_zero_of_mem st _ _ hmem,
        warnCount_warn_zero_of_mem _ _ _
          (mem_warn_warnedOnce_of_mem _ _ _ hmem)]
    refine ⟨?_, ?_, ?_⟩
    · by_cases hc1 : warnCount msg (st.warn noOutputsMsg).2 = 0
      · rw [hc1]
        simpa using warnCount_warn_le_one _ _ msg
      · have hm1 := mem_of_warnCount_warn_ne_zero _ _ _ hc1
        rw [warnCount_warn_zero_of_mem _ _ _ hm1]
        simpa using warnCount_warn_le_one st noOutputsMsg msg
    · intro hne
      rcases Nat.eq_zero_or_pos (warnCount msg
          ((st.warn noOutputsMsg).1.warn (notAcceptedMsg v.typeName)).2) with h2 | h2
      · have h1 : warnCount msg (st.warn noOutputsMsg).2 ≠ 0 := by
          intro hz
          exact hne (by rw [hz, h2])
        exact mem_warn_warnedOnce_of_mem _ _ _
          (mem_of_warnCount_warn_ne_zero _ _ _ h1)
      · exact mem_of_warnCount_warn_ne_zero _ _ _ (Nat.pos_iff_ne_zero.mp h2)
    · intro hmem
      exact mem_warn_warnedOnce_of_mem _ _ _
        (mem_warn_warnedOnce_of_mem _ _ _ hmem)
  · have hout' : st.outputs.isEmpty = false := by
      simpa using hout
    by_cases hrec : recordCalls st.outputs k v st.prefixStr = []
    · -- no output accepted: a single warn call
      have hshape := logkv_shape_unaccepted st k v hout' hrec
      rw [hshape]
      dsimp only
      exact ⟨fun hmem => warnCount_warn_zero_of_mem _ _ _ hmem,
        warnCount_warn_le_one _ _ _,
        fun hne => mem_of_warnCount_warn_ne_zero _ _ _ hne,
        fun hmem => mem_warn_warnedOnce_of_mem _ _ _ hmem⟩
    · -- accepted: only record events, state unchanged
      have hrec' : (recordCalls st.outputs k v st.prefixStr).isEmpty = false := by
        cases hre : recordCalls st.outputs k v st.prefixStr with
        | nil => exact absurd hre hrec
        | cons a l => rfl
      have hshape := logkv_shape_accepted st k v hout' hrec'
      rw [hshape]
      dsimp only
      rw [warnCount_recordCalls]
      exact ⟨fun _ => rfl, Nat.zero_le 1, fun hne => absurd rfl hne,
        fun hmem => hmem⟩

theorem addOutput_warnedOnce (st : Logger) (obj : PyObject) :
    (st.addOutput obj).1.warnedOnce = st.warnedOnce := by
  cases obj <;> rfl

theorem prefixPop_warnedOnce (st : Logger) :
    (st.prefixPop).1.warnedOnce = st.warnedOnce := by
  unfold Logger.prefixPop
  split <;> rfl

theorem stepOp_warnCount (st : Logger) (op : LoggerOp) (msg : String) :
    (msg ∈ st.warnedOnce → warnCount msg (st.stepOp op).2 = 0)
    ∧ warnCount msg (st.stepOp op).2 ≤ 1
    ∧ (warnCount msg (st.stepOp op).2 ≠ 0 → msg ∈ (st.stepOp op).1.warnedOnce)
    ∧ (msg ∈ st.warnedOnce → msg ∈ (st.stepOp op).1.warnedOnce) := by
  cases op with
  | logkvOp k v => exact logkv_warnCount st k v msg
  | logOp v => exact logkv_warnCount st "" v msg
  | addOutputOp obj =>
    exact ⟨fun _ => rfl, Nat.zero_le 1, fun hne => absurd rfl hne,
      fun hmem => by rwa [Logger.stepOp, addOutput_warnedOnce]⟩
  | removeAllOp =>
    exact ⟨fun _ => rfl, Nat.zero_le 1, fun hne => absurd rfl hne, fun h => h⟩
  | removeOutputTypeOp c =>
    exact ⟨fun _ => rfl, Nat.zero_le 1, fun hne => absurd rfl hne, fun h => h⟩
  | resetOutputOp o =>
    exact ⟨fun _ => rfl, Nat.zero_le 1, fun hne => absurd rfl hne, fun h => h⟩
  | prefixPushOp p =>
    exact ⟨fun _ => rfl, Nat.zero_le 1, fun hne => absurd rfl hne, fun h => h⟩
  | prefixPopOp =>
    exact ⟨fun _ => rfl, Nat.zero_le 1, fun hne => absurd rfl hne,
      fun hmem => by rwa [Logger.stepOp, prefixPop_warnedOnce]⟩
  | disableWarningsOp =>
    exact ⟨fun _ => rfl, Nat.zero_le 1, fun hne => absurd rfl hne, fun h => h⟩
  | dumpAllOp s =>
    refine ⟨fun _ => warnCount_map_dumpCall _ _ _, ?_, ?_, fun h => h⟩
    · rw [show warnCount msg (st.stepOp (.dumpAllOp s)).2 = 0 from
        warnCount_map_dumpCall _ _ _]
      exact Nat.zero_le 1
    · intro hne
      exact absurd (warnCount_map_dumpCall msg st.outputs s) hne
  | dumpOutputTypeOp c s =>
    refine ⟨fun _ => warnCount_map_dumpCall _ _ _, ?_, ?_, fun h => h⟩
    · rw [show warnCount msg (st.stepOp (.dumpOutputTypeOp c s)).2 = 0 from
        warnCount_map_dumpCall _ _ _]
      exact Nat.zero_le 1
    · intro hne
      exact absurd (warnCount_map_dumpCall msg _ s) hne

theorem run_warnedOnce_mono (st : Logger) (ops : List LoggerOp) (msg : String)
    (h : msg ∈ st.warnedOnce) : msg ∈ (st.run ops).1.warnedOnce := by
  induction ops generalizing st with
  | nil => exact h
  | cons op rest ih =>
    exact ih _ ((stepOp_warnCount st op msg).2.2.2 h)

theorem run_warnCount_zero (st : Logger) (ops : List LoggerOp) (msg : String)
    (h : msg ∈ st.warnedOnce) : warnCount msg (st.run ops).2 = 0 := by
  induction ops generalizing st with
  | nil => rfl
  | cons op rest ih =>
    show warnCount msg ((st.stepOp op).2 ++ ((st.stepOp op).1.run rest).2) = 0
    rw [warnCount_append, (stepOp_warnCount st op msg).1 h,
      ih _ ((stepOp_warnCount st op msg).2.2.2 h)]

theorem run_warnCount_le_one (st : Logger) (ops : List LoggerOp)
    (msg : String) : warnCount msg (st.run ops).2 ≤ 1 := by
  induction ops generalizing st with
  | nil => exact Nat.zero_le 1
  | cons op rest ih =>
    show warnCount msg ((st.stepOp op).2 ++ ((st.stepOp op).1.run rest).2) ≤ 1
    rw [warnCount_append]
    by_cases hc : warnCount msg (st.stepOp op).2 = 0
    · rw [hc]
      simpa using ih (st.stepOp op).1
    · have hmem := (stepOp_warnCount st op msg).2.2.1 hc
      rw [run_warnCount_zero _ _ _ hmem]
      simpa using (stepOp_warnCount st op msg).2.1

theorem stepOp_disabled_mono (st : Logger) (op : LoggerOp)
    (h : st.warningsDisabled = true) :
    (st.stepOp op).1.warningsDisabled = true := by
  cases op with
  | logkvOp k v =>
    by_cases hout : st.outputs.isEmpty
    · rw [Logger.stepOp, logkv_no_outputs_shape st k v (List.isEmpty_iff.mp hout)]
      exact ((warn_disabled _ _).trans ((warn_disabled _ _).trans h))
    · have hout' : st.outputs.isEmpty = false := by simpa using hout
      by_cases hrec : recordCalls st.outputs k v st.prefixStr = []
      · rw [Logger.stepOp, logkv_shape_unaccepted st k v hout' hrec]
        exact (warn_disabled _ _).trans h
      · have hrec' : (recordCalls st.outputs k v st.prefixStr).isEmpty = false := by
          cases hre : recordCalls st.outputs k v st.prefixStr with
          | nil => exact absurd hre hrec
          | cons a l => rfl
        rw [Logger.stepOp, logkv_shape_accepted st k v hout' hrec']
        exact h
  | logOp v =>
    by_cases hout : st.outputs.isEmpty
    · rw [Logger.stepOp, Logger.log,
        logkv_no_outputs_shape st "" v (List.isEmpty_iff.mp hout)]
      exact ((warn_disabled _ _).trans ((warn_disabled _ _).trans h))
    · have hout' : st.outputs.isEmpty = false := by simpa using hout
      by_cases hrec : recordCalls st.outputs "" v st.prefixStr = []
      · rw [Logger.stepOp, Logger.log, logkv_shape_unaccepted st "" v hout' hrec]
        exact (warn_disabled _ _).trans h
      · have hrec' : (recordCalls st.outputs "" v st.prefixStr).isEmpty = false := by
          cases hre : recordCalls st.outputs "" v st.prefixStr with
          | nil => exact absurd hre hrec
          | cons a l => rfl
        rw [Logger.stepOp, Logger.log, logkv_shape_accepted st "" v hout' hrec']
        exact h
  | addOutputOp obj => cases obj <;> exact h
  | removeAllOp => exact h
  | removeOutputTypeOp c => exact h
  | resetOutputOp o => exact h
  | prefixPushOp p => exact h
  | prefixPopOp =>
    show (st.prefixPop).1.warningsDisabled = true
    unfold Logger.prefixPop
    split <;> exact h
  | disableWarningsOp => rfl
  | dumpAllOp s => exact h
  | dumpOutputTypeOp c s => exact h

theorem run_disabled_mono (st : Logger) (ops : List LoggerOp)
    (h : st.warningsDisabled = true) :
    (st.run ops).1.warningsDisabled = true := by
  induction ops generalizing st with
  | nil => exact h
  | cons op rest ih => exact ih _ (stepOp_disabled_mono st op h)

/-! ## C7 -/

/-- C7: over any lifetime (sequence of API calls) of a `Logger` instance,
every distinct warning message text is actually emitted at most once,
however many times its triggering condition recurs; and disabling warnings
is a one-way latch — no API call ever resets the disabled flag. -/
theorem c7_warn_once (st : Logger) (ops : List LoggerOp) (msg : String) :
    warnCount msg (st.run ops).2 ≤ 1
    ∧ (st.warningsDisabled = true
        → (st.run ops).1.warningsDisabled = true) :=
  ⟨run_warnCount_le_one st ops msg, run_disabled_mono st ops⟩

/-- Witness for C7: a logger with disabled warnings, run over a lifetime that
logs the same unaccepted value twice. -/
theorem c7_witness :
    warnCount (notAcceptedMsg "str")
        (exDisabledLogger.run
          [.logkvOp "k" (Value.str "a"), .logkvOp "k" (Value.str "a")]).2 ≤ 1
    ∧ exDisabledLogger.warningsDisabled = true
    ∧ (exDisabledLogger.run
        [.logkvOp "k" (Value.str "a"),
         .logkvOp "k" (Value.str "a")]).1.warningsDisabled = true :=
  ⟨(c7_warn_once exDisabledLogger
      [.logkvOp "k" (Value.str "a"), .logkvOp "k" (Value.str "a")]
      (notAcceptedMsg "str")).1,
   rfl,
   (c7_warn_once exDisabledLogger
      [.logkvOp "k" (Value.str "a"), .logkvOp "k" (Value.str "a")]
      (notAcceptedMsg "str")).2 rfl⟩

/-! ## C10 -/

/-- C10: calling `logkv` on a `Logger` with zero registered outputs never
raises (the model function is total and emits no error); it emits two
distinct warnings in one call — the no-outputs warning and, because no output
accepted the value, the unaccepted-value warning naming the value's type —
and both enter the de-duplication set, so an identical second call emits
nothing. -/
theorem c10_no_outputs (st : Logger) (key : String) (v : Value)
    (hout : st.outputs = [])
    (hdis : st.warningsDisabled = false)
    (h1 : noOutputsMsg ∉ st.warnedOnce)
    (h2 : notAcceptedMsg v.typeName ∉ st.warnedOnce) :
    (st.logkv key v).2
        = [Event.warn noOutputsMsg, Event.warn (notAcceptedMsg v.typeName)]
    ∧ noOutputsMsg ∈ (st.logkv key v).1.warnedOnce
    ∧ notAcceptedMsg v.typeName ∈ (st.logkv key v).1.warnedOnce
    ∧ ((st.logkv key v).1.logkv key v).2 = [] := by
  have h2' : notAcceptedMsg v.typeName ∉ (st.warn noOutputsMsg).1.warnedOnce := by
    rw [warn_warnedOnce]
    intro hc
    rcases List.mem_insert_iff.mp hc with hc | hc
    · exact notAcceptedMsg_ne v.typeName hc
    · exact h2 hc
  have hstep := logkv_no_outputs_shape st key v hout
  have hw1 : (st.warn noOutputsMsg).2 = [Event.warn noOutputsMsg] :=
    warn_snd_pos st noOutputsMsg hdis h1
  have hw2 : ((st.warn noOutputsMsg).1.warn (notAcceptedMsg v.typeName)).2
      = [Event.warn (notAcceptedMsg v.typeName)] :=
    warn_snd_pos _ _ ((warn_disabled st noOutputsMsg).trans hdis) h2'
  have hmem1 : noOutputsMsg ∈ (st.logkv key v).1.warnedOnce := by
    rw [hstep]
    exact mem_warn_warnedOnce_of_mem _ _ _ (mem_warn_warnedOnce st noOutputsMsg)
  have hmem2 : notAcceptedMsg v.typeName ∈ (st.logkv key v).1.warnedOnce := by
    rw [hstep]
    exact mem_warn_warnedOnce _ _
  refine ⟨?_, hmem1, hmem2, ?_⟩
  · rw [hstep]
    show (st.warn noOutputsMsg).2
        ++ ((st.warn noOutputsMsg).1.warn (notAcceptedMsg v.typeName)).2
      = [Event.warn noOutputsMsg, Event.warn (notAcceptedMsg v.typeName)]
    rw [hw1, hw2]
    rfl
  · have hout' : (st.logkv key v).1.outputs = [] := by
      rw [hstep, warn_outputs, warn_outputs, hout]
    have hstep2 := logkv_no_outputs_shape (st.logkv key v).1 key v hout'
    have hw1' : ((st.logkv key v).1.warn noOutputsMsg).2 = [] :=
      warn_snd_mem _ _ hmem1
    have hw2' : (((st.logkv key v).1.warn noOutputsMsg).1.warn
        (notAcceptedMsg v.typeName)).2 = [] :=
      warn_snd_mem _ _ (mem_warn_warnedOnce_of_mem _ _ _ hmem2)
    rw [hstep2]
    show ((st.logkv key v).1.warn noOutputsMsg).2
        ++ (((st.logkv key v).1.warn noOutputsMsg).1.warn
              (notAcceptedMsg v.typeName)).2 = []
    rw [hw1', hw2']
    rfl

/-- Witness for C10: a fresh logger logging an arbitrary object. -/
theorem c10_witness :
    initLogger.outputs = []
    ∧ initLogger.warningsDisabled = false
    ∧ noOutputsMsg ∉ initLogger.warnedOnce
    ∧ notAcceptedMsg (Value.other "NDArray").typeName ∉ initLogger.warnedOnce
    ∧ ((initLogger.logkv "" (Value.other "NDArray")).2
        = [Event.warn noOutputsMsg,
           Event.warn (notAcceptedMsg (Value.other "NDArray").typeName)]
      ∧ noOutputsMsg ∈ (initLogger.logkv "" (Value.other "NDArray")).1.warnedOnce
      ∧ notAcceptedMsg (Value.other "NDArray").typeName
          ∈ (initLogger.logkv "" (Value.other "NDArray")).1.warnedOnce
      ∧ ((initLogger.logkv "" (Value.other "NDArray")).1.logkv ""
          (Value.other "NDArray")).2 = []) :=
  ⟨rfl, rfl, List.not_mem_nil _, List.not_mem_nil _,
   c10_no_outputs initLogger "" (Value.other "NDArray") rfl rfl
     (List.not_mem_nil _) (List.not_mem_nil _)⟩

/-! ## Helper lemmas about the CSV sink -/

theorem asPrimitiveDict_keys (t : TabularInput) :
    t.asPrimitiveDict.map Prod.fst = t.keys := by
  simp [TabularInput.asPrimitiveDict, TabularInput.keys]

theorem asPrimitiveDict_isEmpty (t : TabularInput) :
    t.asPrimitiveDict.isEmpty = t.entries.isEmpty := by
  cases h : t.entries with
  | nil => simp [TabularInput.asPrimitiveDict, h]
  | cons e rest => simp [TabularInput.asPrimitiveDict, h]

theorem mkRow_keys (fields : List String) (d : List (String × Prim)) :
    (mkRow fields d).map Prod.fst = fields := by
  simp [mkRow, List.map_map]
  exact List.map_id fields

theorem lookup_eq_none_of_not_mem (d : List (String × Prim)) (f : String)
    (h : f ∉ d.map Prod.fst) : d.lookup f = none := by
  induction d with
  | nil => rfl
  | cons e rest ih =>
    rw [List.map_cons, List.mem_cons] at h
    push_neg at h
    have hne : (f == e.1) = false := beq_false_of_ne h.1
    cases e with
    | mk a b =>
      simp only [List.lookup]
      rw [hne]
      exact ih h.2

theorem mkRow_missing (fields : List String) (d : List (String × Prim))
    (f : String) (hf : f ∈ fields) (hnot : f ∉ d.map Prod.fst) :
    (f, Prim.str "") ∈ mkRow fields d := by
  refine List.mem_map.mpr ⟨f, hf, ?_⟩
  rw [lookup_eq_none_of_not_mem d f hnot]
  rfl

/-- `dump` on an empty buffer does nothing. -/
theorem dump_empty (c : CsvState) (h : c.tabular.empty = true) :
    c.dump = (c, []) := by
  unfold CsvState.dump
  rw [h]
  rfl

/-- `dump` on the first non-empty buffer: creates the writer with field names
taken from the snapshot keys, writes the header and the row, flushes, clears
the buffer, warns nothing. -/
theorem dump_first (c : CsvState) (hf : c.fieldnames = none)
    (ht : c.tabular.empty = false) :
    c.dump = ({ c with
        fieldnames := some c.tabular.keys,
        fileTrace := c.fileTrace
          ++ [FileOp.headerRow c.tabular.keys]
          ++ [FileOp.dataRow (mkRow c.tabular.keys c.tabular.asPrimitiveDict),
              FileOp.flushOp],
        tabular := ⟨[]⟩ }, []) := by
  have hto : c.tabular.asPrimitiveDict.isEmpty = false := by
    rw [asPrimitiveDict_isEmpty]
    exact ht
  have hkeys : c.tabular.asPrimitiveDict.map Prod.fst = c.tabular.keys :=
    asPrimitiveDict_keys c.tabular
  unfold CsvState.dump
  rw [ht, hf]
  simp only [Bool.false_eq_true, if_false, hto, Option.isNone_none,
    Bool.false_and, hkeys, eq_self_iff_true, if_true, TabularInput.clear]

/-- `dump` with an existing writer and a snapshot whose key set matches the
field names: writes the row, flushes, clears, warns nothing. -/
theorem dump_match (c : CsvState) (F : List String)
    (hf : c.fieldnames = some F) (ht : c.tabular.empty = false)
    (heq : c.tabular.keys.toFinset = F.toFinset) :
    c.dump = ({ c with
        fileTrace := c.fileTrace
          ++ [FileOp.dataRow (mkRow F c.tabular.asPrimitiveDict),
              FileOp.flushOp],
        tabular := ⟨[]⟩ }, []) := by
  have hkeys : c.tabular.asPrimitiveDict.map Prod.fst = c.tabular.keys :=
    asPrimitiveDict_keys c.tabular
  unfold CsvState.dump
  rw [ht, hf]
  simp only [Bool.false_eq_true, if_false, Option.isNone_some, Bool.and_false,
    hkeys, heq, eq_self_iff_true, if_true, TabularInput.clear]
  rw [hf]

/-- `dump` with an existing writer and a mismatched snapshot key set: warns
once per distinct signature (subject to the sink's own de-duplication),
still writes the row, flushes, clears. -/
theorem dump_mismatch (c : CsvState) (F : List String)
    (hf : c.fieldnames = some F) (ht : c.tabular.empty = false)
    (hne : c.tabular.keys.toFinset ≠ F.toFinset) :
    c.dump = ({ c with
        warnedOnce :=
          c.warnedOnce.insert (F.toFinset, c.tabular.keys.toFinset),
        fileTrace := c.fileTrace
          ++ [FileOp.dataRow (mkRow F c.tabular.asPrimitiveDict),
              FileOp.flushOp],
        tabular := ⟨[]⟩ },
      if c.warningsDisabled = false
          ∧ (F.toFinset, c.tabular.keys.toFinset) ∉ c.warnedOnce
      then [(F.toFinset, c.tabular.keys.toFinset)] else []) := by
  have hkeys : c.tabular.asPrimitiveDict.map Prod.fst = c.tabular.keys :=
    asPrimitiveDict_keys c.tabular
  unfold CsvState.dump
  rw [ht, hf]
  simp only [Bool.false_eq_true, if_false, Option.isNone_some, Bool.and_false,
    hkeys, if_neg hne, TabularInput.clear]
  rw [show (c.fieldnames) = some F from hf]

theorem sigCount_append (sig : MismatchSig) (a b : List MismatchSig) :
    sigCount sig (a ++ b) = sigCount sig a + sigCount sig b :=
  List.count_append _ _ _

theorem dump_sig_facts (c : CsvState) (sig : MismatchSig) :
    (sig ∈ c.warnedOnce → sigCount sig (c.dump).2 = 0)
    ∧ sigCount sig (c.dump).2 ≤ 1
    ∧ (sigCount sig (c.dump).2 ≠ 0 → sig ∈ (c.dump).1.warnedOnce)
    ∧ (sig ∈ c.warnedOnce → sig ∈ (c.dump).1.warnedOnce) := by
  by_cases ht : c.tabular.empty = true
  · rw [dump_empty c ht]
    exact ⟨fun _ => rfl, Nat.zero_le 1, fun hne => absurd rfl hne, fun h => h⟩
  · have ht' : c.tabular.empty = false := by simpa using ht
    cases hf : c.fieldnames with
    | none =>
      rw [dump_first c hf ht']
      exact ⟨fun _ => rfl, Nat.zero_le 1, fun hne => absurd rfl hne,
        fun h => h⟩
    | some F =>
      by_cases heq : c.tabular.keys.toFinset = F.toFinset
      · rw [dump_match c F hf ht' heq]
        exact ⟨fun _ => rfl, Nat.zero_le 1, fun hne => absurd rfl hne,
          fun h => h⟩
      · rw [dump_mismatch c F hf ht' heq]
        dsimp only
        refine ⟨?_, ?_, ?_, ?_⟩
        · intro hmem
          by_cases hcond : c.warningsDisabled = false
              ∧ (F.toFinset, c.tabular.keys.toFinset) ∉ c.warnedOnce
          · rw [if_pos hcond]
            have hne : ((F.toFinset, c.tabular.keys.toFinset) == sig) = false := by
              rw [beq_eq_false_iff_ne]
              intro he
              exact hcond.2 (he ▸ hmem)
            simp [sigCount, List.count_cons, List.count_nil, hne]
          · rw [if_neg hcond]
            rfl
        · by_cases hcond : c.warningsDisabled = false
              ∧ (F.toFinset, c.tabular.keys.toFinset) ∉ c.warnedOnce
          · rw [if_pos hcond]
            exact List.count_le_length _ _
          · rw [if_neg hcond]
            exact Nat.zero_le 1
        · intro hne0
          by_cases hcond : c.warningsDisabled = false
              ∧ (F.toFinset, c.tabular.keys.toFinset) ∉ c.warnedOnce
          · rw [if_pos hcond] at hne0
            have hsig : sig = (F.toFinset, c.tabular.keys.toFinset) := by
              by_contra hns
              apply hne0
              have hb : ((F.toFinset, c.tabular.keys.toFinset) == sig) = false := by
                rw [beq_eq_false_iff_ne]
                exact fun he => hns he.symm
              simp [sigCount, List.count_cons, List.count_nil, hb]
            rw [hsig]
            exact List.mem_insert_self _ _
          · rw [if_neg hcond] at hne0
            exact absurd rfl hne0
        · intro hmem
          exact List.mem_insert_iff.mpr (Or.inr hmem)

theorem dumpRun_warnedOnce_mono (c : CsvState) (ts : List TabularInput)
    (sig : MismatchSig) (h : sig ∈ c.warnedOnce) :
    sig ∈ (c.dumpRun ts).1.warnedOnce := by
  induction ts generalizing c with
  | nil => exact h
  | cons t rest ih =>
    exact ih _ ((dump_sig_facts { c with tabular := t } sig).2.2.2 h)

theorem dumpRun_sigCount_zero (c : CsvState) (ts : List TabularInput)
    (sig : MismatchSig) (h : sig ∈ c.warnedOnce) :
    sigCount sig (c.dumpRun ts).2 = 0 := by
  induction ts generalizing c with
  | nil => rfl
  | cons t rest ih =>
    show sigCount sig ((CsvState.dump { c with tabular := t }).2
      ++ ((CsvState.dump { c with tabular := t }).1.dumpRun rest).2) = 0
    rw [sigCount_append,
      (dump_sig_facts { c with tabular := t } sig).1 h,
      ih _ ((dump_sig_facts { c with tabular := t } sig).2.2.2 h)]

theorem dumpRun_sigCount_le_one (c : CsvState) (ts : List TabularInput)
    (sig : MismatchSig) : sigCount sig (c.dumpRun ts).2 ≤ 1 := by
  induction ts generalizing c with
  | nil => exact Nat.zero_le 1
  | cons t rest ih =>
    show sigCount sig ((CsvState.dump { c with tabular := t }).2
      ++ ((CsvState.dump { c with tabular := t }).1.dumpRun rest).2) ≤ 1
    rw [sigCount_append]
    by_cases hc : sigCount sig (CsvState.dump { c with tabular := t }).2 = 0
    · rw [hc]
      simpa using ih (CsvState.dump { c with tabular := t }).1
    · have hmem := (dump_sig_facts { c with tabular := t } sig).2.2.1 hc
      rw [dumpRun_sigCount_zero _ _ _ hmem]
      simpa using (dump_sig_facts { c with tabular := t } sig).2.1

/-! ## C3 -/

/-- C3: the first dump with a non-empty tabular snapshot fixes the
column-header set from that snapshot, and the field names never change
afterwards; every subsequent dump whose key set differs from the fixed
header set emits the schema-mismatch warning at most once per distinct
mismatched key-set signature over any sequence of dump cycles, and still
writes the row — the row has exactly the header's columns, with missing keys
left empty and extra keys dropped — without failing the dump. -/
theorem c3_csv_headers (c : CsvState) (F : List String) :
    (c.fieldnames = none → c.tabular.empty = false →
        (c.dump).1.fieldnames = some c.tabular.keys)
    ∧ (c.fieldnames = some F → (c.dump).1.fieldnames = some F)
    ∧ (c.fieldnames = some F → c.tabular.empty = false →
        c.tabular.keys.toFinset ≠ F.toFinset →
        ((c.dump).2
            = (if c.warningsDisabled = false
                  ∧ (F.toFinset, c.tabular.keys.toFinset) ∉ c.warnedOnce
               then [(F.toFinset, c.tabular.keys.toFinset)] else [])
          ∧ (F.toFinset, c.tabular.keys.toFinset) ∈ (c.dump).1.warnedOnce
          ∧ (c.dump).1.fileTrace
              = c.fileTrace
                ++ [FileOp.dataRow (mkRow F c.tabular.asPrimitiveDict),
                    FileOp.flushOp]
          ∧ (mkRow F c.tabular.asPrimitiveDict).map Prod.fst = F
          ∧ (∀ f, f ∈ F → f ∉ c.tabular.keys →
              (f, Prim.str "") ∈ mkRow F c.tabular.asPrimitiveDict)))
    ∧ (∀ snaps : List TabularInput, ∀ sig : MismatchSig,
        sigCount sig (c.dumpRun snaps).2 ≤ 1) := by
  refine ⟨?_, ?_, ?_, fun snaps sig => dumpRun_sigCount_le_one c snaps sig⟩
  · intro hf ht
    rw [dump_first c hf ht]
  · intro hf
    by_cases ht : c.tabular.empty = true
    · rw [dump_empty c ht]
      exact hf
    · have ht' : c.tabular.empty = false := by simpa using ht
      by_cases heq : c.tabular.keys.toFinset = F.toFinset
      · rw [dump_match c F hf ht' heq]
        exact hf
      · rw [dump_mismatch c F hf ht' heq]
        exact hf
  · intro hf ht hne
    rw [dump_mismatch c F hf ht hne]
    refine ⟨rfl, List.mem_insert_self _ _, rfl, mkRow_keys _ _, ?_⟩
    intro f hfF hnotk
    refine mkRow_missing F _ f hfF ?_
    rw [asPrimitiveDict_keys]
    exact hnotk

/-- Witness for C3: a first dump on a fresh sink with keys `x, y`, a
mismatched dump on a sink with headers `x, y` but snapshot key `x` only, and
a two-cycle run. -/
theorem c3_witness :
    (exFirstCsv.fieldnames = none
      ∧ exFirstCsv.tabular.empty = false
      ∧ (exFirstCsv.dump).1.fieldnames = some exFirstCsv.tabular.keys)
    ∧ (exCsvState.fieldnames = some ["x", "y"]
      ∧ exCsvState.tabular.empty = false
      ∧ exCsvState.tabular.keys.toFinset ≠ (["x", "y"] : List String).toFinset
      ∧ ((exCsvState.dump).2
            = (if exCsvState.warningsDisabled = false
                  ∧ ((["x", "y"] : List String).toFinset,
                      exCsvState.tabular.keys.toFinset) ∉ exCsvState.warnedOnce
               then [((["x", "y"] : List String).toFinset,
                      exCsvState.tabular.keys.toFinset)] else [])
          ∧ ((["x", "y"] : List String).toFinset,
              exCsvState.tabular.keys.toFinset) ∈ (exCsvState.dump).1.warnedOnce
          ∧ (exCsvState.dump).1.fileTrace
              = exCsvState.fileTrace
                ++ [FileOp.dataRow
                      (mkRow ["x", "y"] exCsvState.tabular.asPrimitiveDict),
                    FileOp.flushOp]
          ∧ (mkRow ["x", "y"] exCsvState.tabular.asPrimitiveDict).map Prod.fst
              = ["x", "y"]
          ∧ (∀ f, f ∈ ["x", "y"] → f ∉ exCsvState.tabular.keys →
              (f, Prim.str "") ∈ mkRow ["x", "y"]
                exCsvState.tabular.asPrimitiveDict)))
    ∧ sigCount ((["x", "y"] : List String).toFinset,
          (["x"] : List String).toFinset)
        (exCsvState.dumpRun [⟨[("x", Value.intV 1)]⟩,
          ⟨[("x", Value.intV 1)]⟩]).2 ≤ 1 :=
  ⟨⟨rfl, rfl, (c3_csv_headers exFirstCsv []).1 rfl rfl⟩,
   ⟨rfl, rfl, by decide,
    (c3_csv_headers exCsvState ["x", "y"]).2.2.1 rfl rfl (by decide)⟩,
   (c3_csv_headers exCsvState ["x", "y"]).2.2.2
     [⟨[("x", Value.intV 1)]⟩, ⟨[("x", Value.intV 1)]⟩]
     ((["x", "y"] : List String).toFinset, (["x"] : List String).toFinset)⟩

/-! ## C4 -/

/-- Counterexample to C4 as stated: `CsvOutput.dump` on an empty buffer (for
example a freshly constructed `CsvOutput`) returns immediately — it writes no
row at all and does not flush, so not every dump call writes exactly one row
and flushes. -/
theorem c4_counterexample :
    CsvState.dump initCsv = (initCsv, [])
    ∧ (CsvState.dump initCsv).1.fileTrace = []
    ∧ ((CsvState.dump initCsv).1.fileTrace.countP FileOp.isDataRow) = 0 :=
  ⟨dump_empty initCsv rfl, rfl, rfl⟩

/-- C4 as amended: every `CsvOutput.dump` call on a non-empty tabular buffer
writes exactly one data row (preceded, on the first such dump, by the header
row) and flushes the file immediately after that row; a dump call on an
empty buffer writes nothing and does not flush. -/
theorem c4_amended (c : CsvState) :
    (c.tabular.empty = true → c.dump = (c, []))
    ∧ (c.tabular.empty = false →
        ((c.dump).1.fileTrace
            = c.fileTrace
              ++ (if c.fieldnames = none
                  then [FileOp.headerRow c.tabular.keys] else [])
              ++ [FileOp.dataRow
                    (mkRow (c.fieldnames.getD c.tabular.keys)
                      c.tabular.asPrimitiveDict),
                  FileOp.flushOp]
          ∧ ((c.dump).1.fileTrace.countP FileOp.isDataRow)
              = (c.fileTrace.countP FileOp.isDataRow) + 1)) := by
  constructor
  · intro ht
    exact dump_empty c ht
  · intro ht
    cases hf : c.fieldnames with
    | none =>
      rw [dump_first c hf ht]
      refine ⟨by simp [hf], ?_⟩
      simp [List.countP_append, FileOp.isDataRow]
    | some F =>
      by_cases heq : c.tabular.keys.toFinset = F.toFinset
      · rw [dump_match c F hf ht heq]
        refine ⟨by simp [hf], ?_⟩
        simp [List.countP_append, FileOp.isDataRow]
      · rw [dump_mismatch c F hf ht heq]
        refine ⟨by simp [hf], ?_⟩
        simp [List.countP_append, FileOp.isDataRow]

/-- Witness for the amended C4: the empty-buffer case on a fresh sink and the
non-empty case on a sink before its first dump. -/
theorem c4_witness :
    initCsv.tabular.empty = true
    ∧ CsvState.dump initCsv = (initCsv, [])
    ∧ exFirstCsv.tabular.empty = false
    ∧ ((exFirstCsv.dump).1.fileTrace
          = exFirstCsv.fileTrace
            ++ (if exFirstCsv.fieldnames = none
                then [FileOp.headerRow exFirstCsv.tabular.keys] else [])
            ++ [FileOp.dataRow
                  (mkRow (exFirstCsv.fieldnames.getD exFirstCsv.tabular.keys)
                    exFirstCsv.tabular.asPrimitiveDict),
                FileOp.flushOp]
        ∧ ((exFirstCsv.dump).1.fileTrace.countP FileOp.isDataRow)
            = (exFirstCsv.fileTrace.countP FileOp.isDataRow) + 1) :=
  ⟨rfl, (c4_amended initCsv).1 rfl, rfl, (c4_amended exFirstCsv).2 rfl⟩

end Dowel
